import Mathlib

set_option maxHeartbeats 1600000
set_option maxRecDepth 8000

/-!
# Verification of the DTN bundle-relay simulator

A shallow embedding of the transmission/routing core of the repository
(`src/network_simulator.py`, `src/routing_algorithms.py`, `src/dtn_core.py`)
together with theorems settling the specification's claims about it.

Conventions of the embedding:
* Python floats are modelled as `ℚ`; `random.random()` is modelled as an
  injected draw stream `draws : ℕ → ℚ` consumed in program order, with a
  position counter threaded through the state.
* The logger, the visualizer and `time.sleep` calls have no effect on the
  simulation state and are omitted.  Wall-clock quantities
  (`recovery_times` values, `avg_recovery_time`) are not modelled; the
  *count* of successful recoveries (`len(recovery_times)`) is.
* Python's unbounded loops are interpreted with fuel: `none` means the
  given fuel was exhausted before the loop finished.
-/

namespace DTN

/-! ## Topology (the parsed graph consumed by the simulator)

`networkx.Graph` built by `_build_network_graph`: an undirected graph whose
edges carry `delay` and `distance` attributes. -/

structure Link where
  source : String
  target : String
  delay : ℚ
  distance : String
  deriving DecidableEq, Repr

abbrev Topology := List Link

/-- Undirected edge lookup: `G[a][b]` succeeds iff some link joins `a` and
`b` in either orientation. -/
def findLink (links : Topology) (a b : String) : Option Link :=
  links.find? (fun l => (l.source == a && l.target == b) || (l.source == b && l.target == a))

def linkDelay (links : Topology) (a b : String) : Option ℚ :=
  (findLink links a b).map Link.delay

/-- `sum(graph[p[i]][p[i+1]]["delay"] for i in range(len(p)-1))`.  For the
paths the simulator handles every consecutive pair is an edge, so the
default `0` for a missing edge is never exercised. -/
def pathDelay (links : Topology) : List String → ℚ
  | a :: b :: rest => (linkDelay links a b).getD 0 + pathDelay links (b :: rest)
  | _ => 0

/-- First-occurrence deduplication (Python dict / adjacency insertion
order). -/
def dedupFirstAux : List String → List String → List String
  | [], _ => []
  | x :: xs, seen =>
    if seen.contains x then dedupFirstAux xs seen
    else x :: dedupFirstAux xs (x :: seen)

def dedupFirst (l : List String) : List String :=
  dedupFirstAux l []

/-- Neighbours of `a` in adjacency (edge-insertion) order. -/
def neighbors (links : Topology) (a : String) : List String :=
  dedupFirst (links.filterMap (fun l =>
    if l.source == a then some l.target
    else if l.target == a then some l.source
    else none))

def nodesOf (links : Topology) : List String :=
  dedupFirst (links.flatMap (fun l => [l.source, l.target]))

/-- DFS enumeration of all simple paths from `current` to `target`, as in
`networkx.all_simple_paths`: a path stops at its first visit to `target`,
no node repeats.  `fuel` only needs to exceed the number of nodes. -/
def simplePathsFrom (links : Topology) (target : String) :
    ℕ → String → List String → List (List String)
  | 0, _, _ => []
  | fuel + 1, current, visited =>
    if current == target then [[current]]
    else
      ((neighbors links current).filter (fun n => !visited.contains n)).flatMap
        (fun n =>
          (simplePathsFrom links target fuel n (n :: visited)).map
            (fun p => current :: p))

def allSimplePaths (links : Topology) (source target : String) : List (List String) :=
  simplePathsFrom links target ((nodesOf links).length + 1) source [source]

/-! ## Stable sorting by a rational key

Python's `list.sort` is stable; this insertion sort is the standard stable
one (an element is inserted before the first strictly-later key, hence
after any equal keys already placed to its left in the original order). -/

def insertBy {α : Type} (key : α → ℚ) (x : α) : List α → List α
  | [] => [x]
  | y :: ys => if key x ≤ key y then x :: y :: ys else y :: insertBy key x ys

def sortBy {α : Type} (key : α → ℚ) : List α → List α
  | [] => []
  | x :: xs => insertBy key x (sortBy key xs)

/-! ## Routing algorithms (`src/routing_algorithms.py`)

`DTNRoutingAlgorithm.get_alternative_paths`: enumerate all simple paths,
annotate each with its total delay and a multiplicative reliability
(`0.7` per hop whose distance string contains `"M km"`, else `0.9`),
sort by `delay * (1/reliability)`, return the first `max_paths` as
`(path, delay)` pairs.  No disruption information is consulted and no
exception escapes (every handler returns `[]`). -/

/-- Contiguous substring occurrence over character lists. -/
def hasSubstrAux (needle : List Char) : List Char → Bool
  | [] => needle.isEmpty
  | c :: cs => needle.isPrefixOf (c :: cs) || hasSubstrAux needle cs

/-- `needle in hay` for Python strings (substring containment). -/
def hasSubstr (needle hay : String) : Bool :=
  hasSubstrAux needle.toList hay.toList

def hopReliability (l : Link) : ℚ :=
  if hasSubstr "M km" l.distance then 7/10 else 9/10

def pathReliability (links : Topology) : List String → ℚ
  | a :: b :: rest =>
    ((findLink links a b).map hopReliability).getD 1 * pathReliability links (b :: rest)
  | _ => 1

/-- The sort key of `paths.sort(key=lambda x: x[1] * (1/x[2]))`, as a
function of the path. -/
def pathScore (links : Topology) (p : List String) : ℚ :=
  pathDelay links p * (1 / pathReliability links p)

def get_alternative_paths (links : Topology) (source destination : String)
    (max_paths : ℕ) : List (List String × ℚ) :=
  let all_paths := allSimplePaths links source destination
  let paths := all_paths.map (fun p => (p, pathDelay links p, pathReliability links p))
  let sorted := sortBy (fun x => x.2.1 * (1 / x.2.2)) paths
  (sorted.take max_paths).map (fun x => (x.1, x.2.1))

/-- The spec's own wording of the score, written independently of the code:
cumulative delay multiplied by the inverse of the path's reliability, the
reliability being the product over hops of 0.9 for near links and 0.7 for
deep-space (`"M km"`) links. -/
def reliabilitySpec (links : Topology) : List String → ℚ
  | a :: b :: rest =>
    (match findLink links a b with
      | some l => if hasSubstr "M km" l.distance then 7/10 else 9/10
      | none => 1) * reliabilitySpec links (b :: rest)
  | _ => 1

def scoreSpec (links : Topology) (p : List String) : ℚ :=
  pathDelay links p * (reliabilitySpec links p)⁻¹

/-- The spec's `selectAlternatives`, written from its words for comparison
with the code: discard candidates whose first hop is currently disrupted,
sort ascending by score, take `k`; `none` models `NoPathError`, raised
exactly when the graph has no route at all. -/
def selectAlternativesSpec (links : Topology) (source destination : String)
    (disrupted : List (String × String)) (k : ℕ) : Option (List (List String)) :=
  let all := allSimplePaths links source destination
  if all.isEmpty then none
  else
    let kept := all.filter (fun p =>
      match p with
      | a :: b :: _ => !(disrupted.contains (a, b) || disrupted.contains (b, a))
      | _ => true)
    some ((sortBy (scoreSpec links) kept).take k)

/-! ## Bundles and nodes (`src/dtn_core.py`) -/

/-- A `datetime` truncated to the fields relevant to `%H%M%S` formatting,
plus the sub-second component that the format discards. -/
structure HMSTime where
  hour : ℕ
  minute : ℕ
  second : ℕ
  microsecond : ℕ
  deriving DecidableEq, Repr

/-- Two-digit zero padding, as in `strftime`. -/
def pad2 (n : ℕ) : String :=
  if n < 10 then "0" ++ toString n else toString n

def strftimeHMS (t : HMSTime) : String :=
  pad2 t.hour ++ pad2 t.minute ++ pad2 t.second

structure Bundle where
  source : String
  destination : String
  payload : String
  creation_timestamp : HMSTime
  id : String
  priority : ℕ
  deriving DecidableEq, Repr

/-- `Bundle.__post_init__`: a missing id defaults to
`f"bundle_{self.creation_timestamp.strftime('%H%M%S')}"`. -/
def mkBundle (source destination payload : String) (t : HMSTime)
    (id? : Option String) : Bundle :=
  { source := source, destination := destination, payload := payload,
    creation_timestamp := t,
    id := id?.getD ("bundle_" ++ strftimeHMS t),
    priority := 1 }

structure DTNNode where
  id : String
  buffer : List Bundle
  max_buffer_size : ℕ
  deriving DecidableEq, Repr

def mkDTNNode (node_id : String) : DTNNode :=
  { id := node_id, buffer := [], max_buffer_size := 1024 * 1024 }

/-- `DTNNode.store_bundle`: append whenever `len(buffer) * 1024` is below
`max_buffer_size`, otherwise return `False` leaving the buffer unchanged. -/
def store_bundle (node : DTNNode) (b : Bundle) : DTNNode × Bool :=
  if node.buffer.length * 1024 < node.max_buffer_size then
    ({ node with buffer := node.buffer ++ [b] }, true)
  else (node, false)

/-- `DTNNode.forward_bundle`: pop the oldest buffered bundle, if any. -/
def forward_bundle (node : DTNNode) : DTNNode × Option Bundle :=
  match node.buffer with
  | [] => (node, none)
  | b :: rest => ({ node with buffer := rest }, some b)

/-! ## The transmission engine (`SimpleNetworkSimulator.simulate_transmission`)

The mutable locals of the Python loop, minus wall-clock quantities.  The
buffer `self.buffer` is a dict from node id to a list of bundles; since one
run handles exactly one bundle, the lists hold bundle ids.  `pos` is the
number of `random.random()` draws consumed so far. -/

structure SimState where
  pos : ℕ
  disrupted : List (String × String)
  totalDelay : ℚ
  retransmissions : ℕ
  buffer : List (String × List String)
  disruptionsHandled : ℕ
  storedCount : ℕ
  successfulRecoveries : ℕ
  deriving DecidableEq, Repr

def initState : SimState :=
  { pos := 0, disrupted := [], totalDelay := 0, retransmissions := 0,
    buffer := [], disruptionsHandled := 0, storedCount := 0,
    successfulRecoveries := 0 }

/-- `self.buffer.get(node, [])`. -/
def bufGet (buf : List (String × List String)) (node : String) : List String :=
  match buf.find? (fun p => p.1 == node) with
  | some p => p.2
  | none => []

/-- `self.buffer[node] = l` (dict update: replace in place, or append a new
key in insertion order). -/
def bufSet (buf : List (String × List String)) (node : String) (l : List String) :
    List (String × List String) :=
  match buf with
  | [] => [(node, l)]
  | p :: rest => if p.1 == node then (node, l) :: rest else p :: bufSet rest node l

/-- Python `set.add` on the disrupted-link set. -/
def addDisrupted (s : List (String × String)) (e : String × String) :
    List (String × String) :=
  if s.contains e then s else s ++ [e]

/-- Lines 137–155: add the link to `disrupted_links`, count the disruption,
and store the bundle at the current node unless already buffered there
(in which case `stored_bundles_count` is not incremented either). -/
def disruptAndStore (st : SimState) (cur nxt bid : String) : SimState :=
  let st := { st with disrupted := addDisrupted st.disrupted (cur, nxt),
                      disruptionsHandled := st.disruptionsHandled + 1 }
  if (bufGet st.buffer cur).contains bid then st
  else { st with buffer := bufSet st.buffer cur (bufGet st.buffer cur ++ [bid]),
                 storedCount := st.storedCount + 1 }

/-- Recovery on success: record the recovery, remove the bundle from the
current node's buffer (`list.remove`: first occurrence) and the link from
the disrupted set. -/
def recoverySuccess (st : SimState) (cur nxt bid : String) : SimState :=
  let buf :=
    match st.buffer.find? (fun p => p.1 == cur) with
    | none => st.buffer
    | some _ => bufSet st.buffer cur ((bufGet st.buffer cur).erase bid)
  { st with successfulRecoveries := st.successfulRecoveries + 1,
            buffer := buf,
            disrupted := st.disrupted.erase (cur, nxt) }

/-- Lines 157–193, the `while retry_count < max_retries` loop.  The first
argument is the number of retries still allowed (started at 3); the
returned flag is `true` iff the link recovered (`retry_count` ended below
`max_retries`).  Each failed attempt increments `retransmissions`. -/
def retryLoop (er dr : ℚ) (draws : ℕ → ℚ) (cur nxt bid : String) :
    ℕ → SimState → SimState × Bool
  | 0, st => (st, false)
  | k + 1, st =>
    let r := draws st.pos
    let st := { st with pos := st.pos + 1 }
    if r > (er + dr) / 2 then (recoverySuccess st cur nxt bid, true)
    else retryLoop er dr draws cur nxt bid k
      { st with retransmissions := st.retransmissions + 1 }

/-- Lines 116–262, the `while i < len(current_path) - 1` hop loop.

Per iteration: one draw against `error_rate` and one against
`disruption_rate`; if either fires, the disrupt/store/retry block runs and
retry exhaustion breaks out of the loop undelivered.  Otherwise (or after a
successful recovery) the link attributes are read and a *second* draw
against `error_rate * distance_factor` is made; if it fires the link is
marked disrupted and the loop `continue`s at the same `i`, else the delay
is committed, `i` advances, and reaching the last node delivers.

`none` models fuel exhaustion of this unbounded loop; a missing edge
(impossible for enumerated paths) is also mapped to `none`. -/
def hopLoop (links : Topology) (er dr : ℚ) (draws : ℕ → ℚ) (bid : String)
    (path : List String) : ℕ → ℕ → SimState → Option (SimState × Bool)
  | 0, _, _ => none
  | fuel + 1, i, st =>
    if i + 1 < path.length then
      let cur := path.getD i ""
      let nxt := path.getD (i + 1) ""
      let e := draws st.pos
      let d := draws (st.pos + 1)
      let st0 := { st with pos := st.pos + 2 }
      let checked : SimState × Bool :=
        if e < er ∨ d < dr then
          retryLoop er dr draws cur nxt bid 3 (disruptAndStore st0 cur nxt bid)
        else (st0, true)
      if checked.2 then
        match findLink links cur nxt with
        | none => none
        | some l =>
          let factor : ℚ := if hasSubstr "km" l.distance then 1 else 3 / 2
          let s := draws checked.1.pos
          let st1 := { checked.1 with pos := checked.1.pos + 1 }
          if s < er * factor then
            hopLoop links er dr draws bid path fuel i
              { st1 with disrupted := addDisrupted st1.disrupted (cur, nxt) }
          else
            let st2 := { st1 with totalDelay := st1.totalDelay + l.delay }
            if i + 1 = path.length - 1 then some (st2, true)
            else hopLoop links er dr draws bid path fuel (i + 1) st2
      else some (checked.1, false)
    else some (st, false)

/-- Lines 105–262, the `for current_path, estimated_delay in
paths_with_delays` loop.  Returns the state, whether delivery happened, and
the last value taken by `current_path, estimated_delay` (which `final_stats`
reads after the loop).  The `if successful_delivery: break` guard sits at
the *top* of the loop body, so after a delivery with candidates remaining
the `for` loop first rebinds the loop variables to the **next** candidate
and only then breaks: `final_stats` then names that next candidate, not the
delivered one.  Delivery on the last candidate (or a non-delivered full
pass) ends the `for` loop by exhaustion, keeping the last binding. -/
def pathsLoop (links : Topology) (er dr : ℚ) (draws : ℕ → ℚ) (bid : String) :
    List (List String × ℚ) → ℕ → SimState →
    Option (SimState × Bool × Option (List String × ℚ))
  | [], _, st => some (st, false, none)
  | (p, est) :: rest, fuel, st =>
    match hopLoop links er dr draws bid p fuel 0 st with
    | none => none
    | some (st', true) =>
      match rest with
      | [] => some (st', true, some (p, est))
      | next :: _ => some (st', true, some next)
    | some (st', false) =>
      if rest.isEmpty then some (st', false, some (p, est))
      else pathsLoop links er dr draws bid rest fuel st'

/-- The `final_stats` dict (wall-clock fields omitted).  Notably there is no
status/reason field: the only way the loops exit is successful delivery. -/
structure FinalStats where
  bundle_id : String
  total_delay : ℚ
  total_retransmissions : ℕ
  final_path : List String
  disruptions : ℕ
  disrupted_links : List (String × String)
  stored_bundles : ℕ
  max_stored_bundles : ℕ
  paths_attempted : ℕ
  total_available_paths : ℕ
  buffer_states : List (String × ℕ)
  total_storage_events : ℕ
  recovery_attempts : ℕ
  successful_recoveries : ℕ
  deriving DecidableEq, Repr

def mkFinalStats (bid : String) (st : SimState) (p : List String) (est : ℚ)
    (paths : List (List String × ℚ)) : FinalStats :=
  { bundle_id := bid,
    total_delay := st.totalDelay,
    total_retransmissions := st.retransmissions,
    final_path := p,
    disruptions := st.disruptionsHandled,
    disrupted_links := st.disrupted,
    stored_bundles := st.storedCount,
    max_stored_bundles := (st.buffer.map (fun q => q.2.length)).foldr max 0,
    paths_attempted := paths.findIdx (fun q => q == (p, est)) + 1,
    total_available_paths := paths.length,
    buffer_states := st.buffer.map (fun q => (q.1, q.2.length)),
    total_storage_events := st.storedCount,
    recovery_attempts := st.retransmissions,
    successful_recoveries := st.successfulRecoveries }

/-- Line 104, the `while not successful_delivery` loop: sweep the whole
candidate list, and if delivery did not happen start over from the first
candidate.  The loop has no other exit. -/
def outerLoop (links : Topology) (er dr : ℚ) (draws : ℕ → ℚ) (bid : String)
    (paths : List (List String × ℚ)) : ℕ → SimState → Option FinalStats
  | 0, _ => none
  | fuel + 1, st =>
    match pathsLoop links er dr draws bid paths fuel st with
    | none => none
    | some (st', true, some pe) => some (mkFinalStats bid st' pe.1 pe.2 paths)
    | some (_, true, none) => none
    | some (st', false, _) => outerLoop links er dr draws bid paths fuel st'

/-- `simulate_transmission`: enumerate all simple paths, annotate with
total delay, sort ascending by delay (stably), then drive the bundle with
the loop above from a fresh state. -/
def simulate_transmission (links : Topology) (er dr : ℚ) (draws : ℕ → ℚ)
    (bid : String) (source destination : String) (fuel : ℕ) : Option FinalStats :=
  let all_paths := allSimplePaths links source destination
  let paths_with_delays :=
    sortBy (fun x => x.2) (all_paths.map (fun p => (p, pathDelay links p)))
  outerLoop links er dr draws bid paths_with_delays fuel initState

/-! ## Concrete instances used by the scenarios -/

/-- The spec's two-link scenario topology:
`{A–B delay=10 distance="1 km", B–C delay=20 distance="2 M km"}`. -/
def T0 : Topology := [⟨"A", "B", 10, "1 km"⟩, ⟨"B", "C", 20, "2 M km"⟩]

/-- A topology on which the lowest-delay path is not the lowest-scored one:
the direct deep-space link `A–C` has delay `30` and score `300/7 ≈ 42.9`,
while `A–B–C` has delay `32` and score `3200/81 ≈ 39.5`. -/
def T2 : Topology :=
  [⟨"A", "C", 30, "5 M km"⟩, ⟨"A", "B", 10, "1 km"⟩, ⟨"B", "C", 22, "1 km"⟩]

/-- Two disjoint `A → C` paths: `A–B–C` (delay 2) and `A–D–C` (delay 10). -/
def T3 : Topology :=
  [⟨"A", "B", 1, "1 km"⟩, ⟨"B", "C", 1, "1 km"⟩,
   ⟨"A", "D", 5, "1 km"⟩, ⟨"D", "C", 5, "1 km"⟩]

/-- A single link. -/
def TAB : Topology := [⟨"A", "B", 10, "1 km"⟩]

/-- A disconnected topology: no route from `A` to `C`. -/
def Tdisc : Topology := [⟨"A", "B", 10, "1 km"⟩, ⟨"C", "D", 5, "1 km"⟩]

/-- A draw stream of constant `1/2`; with both rates `0` no check can fire. -/
def halfStream (_ : ℕ) : ℚ := 1 / 2

/-- Draw stream realising the spec's exhaustion scenario on `T0` with
`error_rate = 0`, `disruption_rate = 1/2`: the run consumes eight draws per
sweep (three for the clean `A–B` hop, two for the `B–C` check, three failed
recovery draws), so position `1 (mod 8)` is the `A–B` disruption draw, kept
at `9/10 ≥ 1/2` (clean), and every other draw is `0`, so `B–C` is disrupted
on every attempt and no recovery ever succeeds. -/
def c1Stream (n : ℕ) : ℚ := if n % 8 = 1 then 9 / 10 else 0

/-- Draw stream for `T3` with rates `(0, 1/2)`: disrupts the first hop
`A–B` of the first path (draw 1 is `0`), fails all three recoveries, then
lets the second path `A–D–C` through (draws 6 and 9 are the disruption
checks of its two hops). -/
def c4Stream (n : ℕ) : ℚ := if n = 6 ∨ n = 9 then 9 / 10 else 0

/-- Draw stream for `T3` with rates `(0, 1/2)`: both paths' second hops
(`B–C`, then `D–C`) are disrupted and never recover, so the bundle is
stored at `B` and then also at `D`. -/
def c8Stream (n : ℕ) : ℚ := if n = 1 ∨ n = 9 then 9 / 10 else 0

/-- Draw stream for `T0` with rates `(0, 1/2)`: `B–C` is disrupted once,
the first recovery draw fails, the second succeeds (draw 6 is `9/10 >
1/4`), and the retried transmission goes through. -/
def c8recStream (n : ℕ) : ℚ := if n = 1 ∨ n = 6 then 9 / 10 else 0

/-- The sorted candidate list `simulate_transmission` computes on `T0`. -/
def c1Paths : List (List String × ℚ) := [(["A", "B", "C"], 30)]

/-- The sorted candidate list `simulate_transmission` computes on `T3`. -/
def pathsT3 : List (List String × ℚ) := [(["A", "B", "C"], 2), (["A", "D", "C"], 10)]

/-- A concrete bundle with a defaulted id. -/
def bX : Bundle := mkBundle "mars_rover" "earth_station" "msg" ⟨12, 34, 56, 0⟩ none

/-- Every consecutive pair of the path is an edge of the topology (true of
every enumerated path; stated as a checkable side condition). -/
def pathLinked (links : Topology) : List String → Bool
  | a :: b :: rest => (findLink links a b).isSome && pathLinked links (b :: rest)
  | _ => true

/-- On `T0` with `B–C` disrupted on every attempt and recovery always
failing, the run never terminates: no fuel suffices. -/
def c1Diverges : Prop :=
  ∀ fuel, simulate_transmission T0 0 (1 / 2) c1Stream "b" "A" "C" fuel = none

/-- With `source = destination` the run never terminates: the delivered
check sits inside the hop loop, whose body never executes on the trivial
path, so `successful_delivery` is never set. -/
def c6Diverges : Prop :=
  ∀ fuel, simulate_transmission T0 0 0 halfStream "b" "A" "A" fuel = none

/-! Intermediate states of the concrete runs, read off the loop bodies:
after the first path of the `c4Stream` run, after each hop of the
`c8Stream` and `c8recStream` runs. -/

/-- State after the first candidate of the `c4Stream` run on `T3`: first
hop `A–B` disrupted, bundle stored at `A`, three failed recoveries. -/
def c4StA : SimState :=
  { pos := 5, disrupted := [("A", "B")], totalDelay := 0, retransmissions := 3,
    buffer := [("A", ["b"])], disruptionsHandled := 1, storedCount := 1,
    successfulRecoveries := 0 }

/-- `c4Stream` run, second candidate, after committing hop `A–D`. -/
def c4StB : SimState := { c4StA with pos := 8, totalDelay := 5 }

/-- `c4Stream` run, delivered state after committing hop `D–C`. -/
def c4StC : SimState := { c4StA with pos := 11, totalDelay := 10 }

/-- `c8Stream` run on `T3`: after committing hop `A–B` of the first path. -/
def c8St1 : SimState := ⟨3, [], 1, 0, [], 0, 0, 0⟩

/-- `c8Stream` run: first path broken at `B–C`, bundle stored at `B`. -/
def c8StP : SimState := ⟨8, [("B", "C")], 1, 3, [("B", ["b"])], 1, 1, 0⟩

/-- `c8Stream` run: second path after committing hop `A–D`. -/
def c8St2 : SimState := ⟨11, [("B", "C")], 6, 3, [("B", ["b"])], 1, 1, 0⟩

/-- `c8Stream` run: second path broken at `D–C`; the bundle now sits in the
buffers of both `B` and `D`. -/
def c8StQ : SimState :=
  ⟨16, [("B", "C"), ("D", "C")], 6, 6, [("B", ["b"]), ("D", ["b"])], 2, 2, 0⟩

/-- `c8recStream` run on `T0`: after committing hop `A–B`. -/
def c8rSt1 : SimState := ⟨3, [], 10, 0, [], 0, 0, 0⟩

/-- `c8recStream` run: delivered after one failed and one successful
recovery at `B–C`; the copy stored at `B` was removed on recovery. -/
def c8rStR : SimState := ⟨8, [], 30, 1, [("B", [])], 1, 1, 1⟩

end DTN

namespace DTN

/-! ## Theorems -/

theorem mem_insertBy {α : Type} (key : α → ℚ) (x a : α) (l : List α) :
    a ∈ insertBy key x l ↔ a = x ∨ a ∈ l := by
  induction l with
  | nil => simp [insertBy]
  | cons y ys ih =>
    simp only [insertBy]
    split
    · simp [List.mem_cons]
    · simp only [List.mem_cons, ih]
      tauto



theorem mem_sortBy {α : Type} (key : α → ℚ) (a : α) (l : List α) :
    a ∈ sortBy key l ↔ a ∈ l := by
  induction l with
  | nil => simp [sortBy]
  | cons y ys ih => simp [sortBy, mem_insertBy, ih]



theorem sorted_insertBy {α : Type} (key : α → ℚ) (x : α) (l : List α)
    (h : l.Sorted (fun a b => key a ≤ key b)) :
    (insertBy key x l).Sorted (fun a b => key a ≤ key b) := by
  induction l with
  | nil => simp [insertBy]
  | cons y ys ih =>
    rw [List.sorted_cons] at h
    obtain ⟨hy, hys⟩ := h
    simp only [insertBy]
    split
    · rename_i hle
      rw [List.sorted_cons]
      refine ⟨?_, ?_⟩
      · intro b hb
        rcases List.mem_cons.mp hb with rfl | hb
        · exact hle
        · exact le_trans hle (hy b hb)
      · rw [List.sorted_cons]
        exact ⟨hy, hys⟩
    · rename_i hgt
      rw [List.sorted_cons]
      refine ⟨?_, ih hys⟩
      intro b hb
      rcases (mem_insertBy key x b ys).mp hb with rfl | hb
      · exact le_of_lt (lt_of_not_le hgt)
      · exact hy b hb



theorem sorted_sortBy {α : Type} (key : α → ℚ) (l : List α) :
    (sortBy key l).Sorted (fun a b => key a ≤ key b) := by
  induction l with
  | nil => simp [sortBy]
  | cons y ys ih => exact sorted_insertBy key y _ ih



theorem sortBy_head_min {α : Type} (key : α → ℚ) (l : List α) (x : α) (xs : List α)
    (h : sortBy key l = x :: xs) (a : α) (ha : a ∈ l) : key x ≤ key a := by
  have hmem : a ∈ x :: xs := by rw [← h, mem_sortBy]; exact ha
  have hs := sorted_sortBy key l
  rw [h, List.sorted_cons] at hs
  rcases List.mem_cons.mp hmem with rfl | hmem
  · exact le_refl _
  · exact hs.1 a hmem



theorem pathLinked_head {links : Topology} {a b : String} {rest : List String}
    (h : pathLinked links (a :: b :: rest) = true) :
    (findLink links a b).isSome = true ∧ pathLinked links (b :: rest) = true := by
  simpa [pathLinked, Bool.and_eq_true] using h



theorem pathLinked_getD (links : Topology) :
    ∀ (p : List String) (i : ℕ), pathLinked links p = true → i + 1 < p.length →
      ∃ l, findLink links (p.getD i "") (p.getD (i + 1) "") = some l := by
  intro p
  induction p with
  | nil => intro i _ hi; simp at hi
  | cons a rest ih =>
    intro i hp hi
    match rest, hp, hi with
    | b :: rest', hp, hi =>
      match i with
      | 0 =>
        obtain ⟨hl, _⟩ := pathLinked_head hp
        obtain ⟨l, hl2⟩ := Option.isSome_iff_exists.mp hl
        exact ⟨l, by simpa [List.getD] using hl2⟩
      | Nat.succ j =>
        obtain ⟨_, hrest⟩ := pathLinked_head hp
        have hj : j + 1 < (b :: rest').length := by simpa using hi
        simpa [List.getD_cons_succ] using ih j hrest hj



theorem pathDelay_short (links : Topology) (p : List String) (h : p.length ≤ 1) :
    pathDelay links p = 0 := by
  match p with
  | [] => rfl
  | [a] => rfl
  | a :: b :: t => simp at h



theorem pathDelay_drop (links : Topology) :
    ∀ (p : List String) (i : ℕ), i + 1 < p.length →
      pathDelay links (p.drop i)
        = (linkDelay links (p.getD i "") (p.getD (i + 1) "")).getD 0
          + pathDelay links (p.drop (i + 1)) := by
  intro p
  induction p with
  | nil => intro i hi; simp at hi
  | cons a rest ih =>
    intro i hi
    match rest, hi with
    | b :: rest', hi =>
      match i with
      | 0 => simp [pathDelay, List.getD]
      | Nat.succ j =>
        have hj : j + 1 < (b :: rest').length := by simpa using hi
        simpa [List.getD_cons_succ] using ih j hj



/-- One committed hop attempt of the engine, fully characterised: the hop
makes the two entry draws (against `error_rate` and `disruption_rate`) and,
when both are clean, a third draw at the link-commit site (against
`error_rate` times the distance factor); three draws total, then the delay
commits and the loop advances (or delivers on the last hop). -/

theorem hop_commit_step (links : Topology) (er dr : ℚ) (draws : ℕ → ℚ) (bid : String)
    (p : List String) (i fuel : ℕ) (st : SimState) (l : Link)
    (hlen : i + 1 < p.length)
    (hlink : findLink links (p.getD i "") (p.getD (i + 1) "") = some l)
    (h1 : ¬ draws st.pos < er) (h2 : ¬ draws (st.pos + 1) < dr)
    (h3 : ¬ draws (st.pos + 2) < er * (if hasSubstr "km" l.distance then 1 else 3 / 2)) :
    hopLoop links er dr draws bid p (fuel + 1) i st
      = if i + 1 = p.length - 1
          then some ({ st with pos := st.pos + 3, totalDelay := st.totalDelay + l.delay }, true)
          else hopLoop links er dr draws bid p fuel (i + 1)
            { st with pos := st.pos + 3, totalDelay := st.totalDelay + l.delay } := by
  have hlink2 : findLink links (p[i]?.getD "") (p[i + 1]?.getD "") = some l := by
    simpa using hlink
  by_cases hkm : hasSubstr "km" l.distance = true
  · have h3a : ¬ draws (st.pos + 2) < er := by simpa [hkm] using h3
    simp only [hopLoop, if_pos hlen]
    simp [h1, h2, hlink2, hkm, h3a, Nat.add_assoc]
  · have h3b : ¬ draws (st.pos + 2) < er * (3 / 2) := by simpa [hkm] using h3
    simp only [hopLoop, if_pos hlen]
    simp [h1, h2, hlink2, hkm, h3b, Nat.add_assoc]



/-- With both rates zero and a nonnegative draw stream, the hop loop
commits every hop of a linked path: it delivers, adds exactly the path's
remaining cumulative delay, and performs no retransmission. -/

theorem hopLoop_clean (links : Topology) (draws : ℕ → ℚ) (bid : String)
    (hdraws : ∀ n, 0 ≤ draws n) (p : List String) (hp : pathLinked links p = true) :
    ∀ fuel i st, i + 1 < p.length → p.length - 1 - i ≤ fuel →
      ∃ st', hopLoop links 0 0 draws bid p fuel i st = some (st', true)
        ∧ st'.totalDelay = st.totalDelay + pathDelay links (p.drop i)
        ∧ st'.retransmissions = st.retransmissions := by
  intro fuel
  induction fuel with
  | zero => intro i st hi hle; omega
  | succ k ih =>
    intro i st hi hle
    obtain ⟨l, hl⟩ := pathLinked_getD links p i hp hi
    have h1 : ¬ draws st.pos < 0 := not_lt.mpr (hdraws _)
    have h2 : ¬ draws (st.pos + 1) < 0 := not_lt.mpr (hdraws _)
    have h3 : ¬ draws (st.pos + 2) < 0 * (if hasSubstr "km" l.distance then 1 else 3 / 2) := by
      rw [zero_mul]
      exact not_lt.mpr (hdraws _)
    have hstep := hop_commit_step links 0 0 draws bid p i k st l hi hl h1 h2 h3
    by_cases hend : i + 1 = p.length - 1
    · rw [hstep, if_pos hend]
      refine ⟨_, rfl, ?_, by simp⟩
      have hdrop := pathDelay_drop links p i hi
      have hshort : pathDelay links (p.drop (i + 1)) = 0 := by
        apply pathDelay_short
        rw [List.length_drop]
        omega
      rw [hdrop, hshort, linkDelay, hl]
      simp
    · rw [hstep, if_neg hend]
      have hi2 : (i + 1) + 1 < p.length := by omega
      have hle2 : p.length - 1 - (i + 1) ≤ k := by omega
      obtain ⟨st', heq, hdel, hretr⟩ := ih (i + 1) _ hi2 hle2
      refine ⟨st', heq, ?_, by simpa using hretr⟩
      rw [hdel]
      rw [pathDelay_drop links p i hi, linkDelay, hl]
      simp
      ring



theorem reliabilitySpec_eq (links : Topology) :
    ∀ p, reliabilitySpec links p = pathReliability links p := by
  intro p
  induction p with
  | nil => rfl
  | cons a rest ih =>
    cases rest with
    | nil => rfl
    | cons b rest' =>
      cases hfl : findLink links a b with
      | none => simp [reliabilitySpec, pathReliability, hfl, ih]
      | some l => simp [reliabilitySpec, pathReliability, hfl, hopReliability, ih]



theorem c6_outer : ∀ fuel st, outerLoop T0 0 0 halfStream "b" [(["A"], 0)] fuel st = none := by
  intro fuel
  induction fuel with
  | zero => intro st; rfl
  | succ n ih =>
    intro st
    match n with
    | 0 => rfl
    | Nat.succ m =>
      have h : pathsLoop T0 0 0 halfStream "b" [(["A"], 0)] (m + 1) st
          = some (st, false, some (["A"], 0)) := by
        simp [pathsLoop, hopLoop]
      rw [outerLoop, h]
      exact ih st



theorem c1_hop1 (k : ℕ) (st : SimState) (h : st.pos % 8 = 0) :
    hopLoop T0 0 (1 / 2) c1Stream "b" ["A", "B", "C"] (k + 1) 0 st
      = hopLoop T0 0 (1 / 2) c1Stream "b" ["A", "B", "C"] k 1
          { st with pos := st.pos + 3, totalDelay := st.totalDelay + 10 } := by
  have m0 : st.pos % 8 = 0 := h
  norm_num [hopLoop, c1Stream, T0, findLink, hasSubstr, hasSubstrAux,
    Nat.add_mod, m0, Nat.add_assoc]



theorem c1_hop2a (k : ℕ) (st : SimState) (h : st.pos % 8 = 3)
    (hb : "b" ∈ bufGet st.buffer "B") :
    hopLoop T0 0 (1 / 2) c1Stream "b" ["A", "B", "C"] (k + 1) 1 st
      = some ({ st with
                pos := st.pos + 5
                disrupted := addDisrupted st.disrupted ("B", "C")
                disruptionsHandled := st.disruptionsHandled + 1
                retransmissions := st.retransmissions + 3 }, false) := by
  norm_num [hopLoop, retryLoop, disruptAndStore, addDisrupted, c1Stream, T0,
    findLink, hasSubstr, hasSubstrAux, Nat.add_mod, h, Nat.add_assoc, hb]



theorem c1_hop2b (k : ℕ) (st : SimState) (h : st.pos % 8 = 3)
    (hb : ¬ "b" ∈ bufGet st.buffer "B") :
    hopLoop T0 0 (1 / 2) c1Stream "b" ["A", "B", "C"] (k + 1) 1 st
      = some ({ st with
                pos := st.pos + 5
                disrupted := addDisrupted st.disrupted ("B", "C")
                disruptionsHandled := st.disruptionsHandled + 1
                retransmissions := st.retransmissions + 3
                buffer := bufSet st.buffer "B" (bufGet st.buffer "B" ++ ["b"])
                storedCount := st.storedCount + 1 }, false) := by
  norm_num [hopLoop, retryLoop, disruptAndStore, addDisrupted, c1Stream, T0,
    findLink, hasSubstr, hasSubstrAux, Nat.add_mod, h, Nat.add_assoc, hb]



theorem c1_hop2 (k : ℕ) (st : SimState) (h : st.pos % 8 = 3) :
    ∃ st', hopLoop T0 0 (1 / 2) c1Stream "b" ["A", "B", "C"] (k + 1) 1 st
        = some (st', false) ∧ st'.pos = st.pos + 5 := by
  by_cases hb : "b" ∈ bufGet st.buffer "B"
  · exact ⟨_, c1_hop2a k st h hb, by simp⟩
  · exact ⟨_, c1_hop2b k st h hb, by simp⟩



theorem c1_paths_eq :
    sortBy (fun x => x.2) ((allSimplePaths T0 "A" "C").map (fun p => (p, pathDelay T0 p)))
      = c1Paths := by
  simp [allSimplePaths, simplePathsFrom, neighbors, nodesOf, dedupFirst, dedupFirstAux,
    T0, sortBy, insertBy, pathDelay, linkDelay, findLink, c1Paths, List.find?]
  norm_num



theorem c1_outer : ∀ fuel st, st.pos % 8 = 0 →
    outerLoop T0 0 (1 / 2) c1Stream "b" c1Paths fuel st = none := by
  intro fuel
  induction fuel with
  | zero => intro st _; rfl
  | succ n ih =>
    intro st h
    match n with
    | 0 => rfl
    | 1 =>
      have h1 := c1_hop1 0 st h
      rw [outerLoop]
      simp only [c1Paths, pathsLoop, h1]
      rfl
    | Nat.succ (Nat.succ m) =>
      have h3 : ({ st with pos := st.pos + 3, totalDelay := st.totalDelay + 10 } : SimState).pos % 8 = 3 := by
        simp only []
        omega
      obtain ⟨st', hEq, hpos⟩ := c1_hop2 m _ h3
      have hcomb : hopLoop T0 0 (1 / 2) c1Stream "b" ["A", "B", "C"] (m + 1 + 1) 0 st
          = some (st', false) := by
        rw [c1_hop1 (m + 1) st h]
        exact hEq
      rw [outerLoop]
      simp only [c1Paths, pathsLoop, hcomb, List.isEmpty]
      exact ih st' (by simp at hpos; omega)



theorem t2_paths_eq :
    sortBy (fun x => x.2) ((allSimplePaths T2 "A" "C").map (fun p => (p, pathDelay T2 p)))
      = [(["A", "C"], 30), (["A", "B", "C"], 32)] := by
  simp [allSimplePaths, simplePathsFrom, neighbors, nodesOf, dedupFirst, dedupFirstAux,
    T2, pathDelay, linkDelay, findLink, List.find?]
  norm_num [sortBy, insertBy]



theorem c2_run_T2 :
    (simulate_transmission T2 0 0 halfStream "b" "A" "C" 6).map
      (fun s => (s.final_path, s.total_delay, s.paths_attempted))
      = some (["A", "B", "C"], 30, 2) := by
  simp only [simulate_transmission]
  rw [t2_paths_eq]
  norm_num [outerLoop, pathsLoop, hopLoop, halfStream, initState, mkFinalStats,
    findLink, T2, hasSubstr, hasSubstrAux, List.find?, List.findIdx]
  decide



theorem c2_score_T2 :
    pathScore T2 ["A", "B", "C"] < pathScore T2 ["A", "C"] := by
  simp [pathScore, pathDelay, pathReliability, hopReliability, T2, findLink,
    linkDelay, hasSubstr, hasSubstrAux, List.find?]
  norm_num



theorem t3_paths_eq :
    sortBy (fun x => x.2) ((allSimplePaths T3 "A" "C").map (fun p => (p, pathDelay T3 p)))
      = pathsT3 := by
  simp [allSimplePaths, simplePathsFrom, neighbors, nodesOf, dedupFirst, dedupFirstAux,
    T3, pathDelay, linkDelay, findLink, List.find?, pathsT3]
  norm_num [sortBy, insertBy]



theorem c4_hop1 (k : ℕ) :
    hopLoop T3 0 (1 / 2) c4Stream "b" ["A", "B", "C"] (k + 1) 0 initState
      = some (c4StA, false) := by
  norm_num [hopLoop, retryLoop, disruptAndStore, addDisrupted, bufGet, bufSet,
    recoverySuccess, c4Stream, T3, findLink, hasSubstr, hasSubstrAux, initState,
    List.find?, c4StA]



theorem c4_hop2 (k : ℕ) :
    hopLoop T3 0 (1 / 2) c4Stream "b" ["A", "D", "C"] (k + 1) 0 c4StA
      = hopLoop T3 0 (1 / 2) c4Stream "b" ["A", "D", "C"] k 1 c4StB := by
  simp [hopLoop, c4Stream, T3, findLink, hasSubstr, hasSubstrAux, c4StA, c4StB,
    List.find?]
  norm_num



theorem c4_hop3 (k : ℕ) :
    hopLoop T3 0 (1 / 2) c4Stream "b" ["A", "D", "C"] (k + 1) 1 c4StB
      = some (c4StC, true) := by
  simp [hopLoop, c4Stream, T3, findLink, hasSubstr, hasSubstrAux, c4StB, c4StC,
    List.find?]
  norm_num



theorem c8_hop1 (k : ℕ) :
    hopLoop T3 0 (1 / 2) c8Stream "b" ["A", "B", "C"] (k + 1) 0 initState
      = hopLoop T3 0 (1 / 2) c8Stream "b" ["A", "B", "C"] k 1 c8St1 := by
  simp [hopLoop, c8Stream, T3, findLink, hasSubstr, hasSubstrAux, initState, c8St1,
    List.find?]
  norm_num



theorem c8_hop2 (k : ℕ) :
    hopLoop T3 0 (1 / 2) c8Stream "b" ["A", "B", "C"] (k + 1) 1 c8St1
      = some (c8StP, false) := by
  simp [hopLoop, retryLoop, disruptAndStore, addDisrupted, bufGet, bufSet,
    recoverySuccess, c8Stream, T3, findLink, hasSubstr, hasSubstrAux, c8St1, c8StP,
    List.find?]
  norm_num



theorem c8_hop3 (k : ℕ) :
    hopLoop T3 0 (1 / 2) c8Stream "b" ["A", "D", "C"] (k + 1) 0 c8StP
      = hopLoop T3 0 (1 / 2) c8Stream "b" ["A", "D", "C"] k 1 c8St2 := by
  simp [hopLoop, c8Stream, T3, findLink, hasSubstr, hasSubstrAux, c8StP, c8St2,
    List.find?]
  norm_num



theorem c8_hop4 (k : ℕ) :
    hopLoop T3 0 (1 / 2) c8Stream "b" ["A", "D", "C"] (k + 1) 1 c8St2
      = some (c8StQ, false) := by
  simp [hopLoop, retryLoop, disruptAndStore, addDisrupted, bufGet, bufSet,
    recoverySuccess, c8Stream, T3, findLink, hasSubstr, hasSubstrAux, c8St2, c8StQ,
    List.find?]
  norm_num



theorem c8r_hop1 (k : ℕ) :
    hopLoop T0 0 (1 / 2) c8recStream "b" ["A", "B", "C"] (k + 1) 0 initState
      = hopLoop T0 0 (1 / 2) c8recStream "b" ["A", "B", "C"] k 1 c8rSt1 := by
  simp [hopLoop, c8recStream, T0, findLink, hasSubstr, hasSubstrAux, initState, c8rSt1,
    List.find?]
  norm_num



theorem c8r_hop2 (k : ℕ) :
    hopLoop T0 0 (1 / 2) c8recStream "b" ["A", "B", "C"] (k + 1) 1 c8rSt1
      = some (c8rStR, true) := by
  simp [hopLoop, retryLoop, disruptAndStore, addDisrupted, bufGet, bufSet,
    recoverySuccess, c8recStream, T0, findLink, hasSubstr, hasSubstrAux, c8rSt1, c8rStR,
    List.find?]
  norm_num



theorem c4am_a (links : Topology) (er dr : ℚ) (draws : ℕ → ℚ) (bid : String)
    (p : List String) (i fuel : ℕ) (st : SimState)
    (hlen : i + 1 < p.length)
    (hdis : draws st.pos < er ∨ draws (st.pos + 1) < dr)
    (hf0 : ¬ draws (st.pos + 2) > (er + dr) / 2)
    (hf1 : ¬ draws (st.pos + 3) > (er + dr) / 2)
    (hf2 : ¬ draws (st.pos + 4) > (er + dr) / 2)
    (hb : bid ∈ bufGet st.buffer (p.getD i "")) :
    hopLoop links er dr draws bid p (fuel + 1) i st
      = some ({ st with
          pos := st.pos + 5
          disrupted := addDisrupted st.disrupted (p.getD i "", p.getD (i + 1) "")
          disruptionsHandled := st.disruptionsHandled + 1
          retransmissions := st.retransmissions + 3 }, false) := by
  have hcond : (draws st.pos < er ∨ draws (st.pos + 1) < dr) = True := eq_true hdis
  have hb2 : bid ∈ bufGet st.buffer (p[i]?.getD "") := by simpa using hb
  simp only [hopLoop, if_pos hlen]
  simp [hcond, retryLoop, disruptAndStore, hb2, hf0, hf1, hf2, Nat.add_assoc]



theorem c4am_b (links : Topology) (er dr : ℚ) (draws : ℕ → ℚ) (bid : String)
    (p : List String) (i fuel : ℕ) (st : SimState)
    (hlen : i + 1 < p.length)
    (hdis : draws st.pos < er ∨ draws (st.pos + 1) < dr)
    (hf0 : ¬ draws (st.pos + 2) > (er + dr) / 2)
    (hf1 : ¬ draws (st.pos + 3) > (er + dr) / 2)
    (hf2 : ¬ draws (st.pos + 4) > (er + dr) / 2)
    (hb : ¬ bid ∈ bufGet st.buffer (p.getD i "")) :
    hopLoop links er dr draws bid p (fuel + 1) i st
      = some ({ st with
          pos := st.pos + 5
          disrupted := addDisrupted st.disrupted (p.getD i "", p.getD (i + 1) "")
          disruptionsHandled := st.disruptionsHandled + 1
          retransmissions := st.retransmissions + 3
          buffer := bufSet st.buffer (p.getD i "")
            (bufGet st.buffer (p.getD i "") ++ [bid])
          storedCount := st.storedCount + 1 }, false) := by
  have hcond : (draws st.pos < er ∨ draws (st.pos + 1) < dr) = True := eq_true hdis
  have hb2 : ¬ bid ∈ bufGet st.buffer (p[i]?.getD "") := by simpa using hb
  simp only [hopLoop, if_pos hlen]
  simp [hcond, retryLoop, disruptAndStore, hb2, hf0, hf1, hf2, Nat.add_assoc]



theorem c5_part3 :
    get_alternative_paths T0 "A" "C" 3 = [(["A", "B", "C"], 30)] := by
  simp [get_alternative_paths, allSimplePaths, simplePathsFrom, neighbors, nodesOf,
    dedupFirst, dedupFirstAux, T0, pathDelay, linkDelay, findLink, List.find?,
    pathReliability, hasSubstr, hasSubstrAux, sortBy, insertBy]
  norm_num



/-- C1 (counterexample): in the spec's exhaustion scenario - topology
`T0`, `error_rate = 0`, `disruption_rate = 1/2`, draw stream `c1Stream`
keeping `A-B` clean, `B-C` disrupted on every attempt and every recovery
failing - the claim says the run terminates with `Failed(Exhausted)` after
3 failed recoveries; in fact `simulate_transmission` returns `none` for
every fuel: the loop restarts from the first candidate forever and no
failure status exists in the code. -/
theorem C1_counterexample : c1Diverges := by
  intro fuel
  simp only [simulate_transmission]
  rw [c1_paths_eq]
  exact c1_outer fuel initState rfl

/-- C1 (amended): in that same scenario one full sweep of the candidate
list ends undelivered after exactly 3 failed recoveries
(`retransmissions = 3`), one disruption handled, `10` seconds of committed
delay on the clean hop, and with no untried candidate remaining - after
which the engine starts over instead of failing. -/
theorem C1_amended :
    (pathsLoop T0 0 (1 / 2) c1Stream "b" c1Paths 10 initState).map
      (fun r => (r.1.retransmissions, r.1.disruptionsHandled, r.1.totalDelay, r.2.1))
      = some (3, 1, 10, false) := by
  have h1 : hopLoop T0 0 (1 / 2) c1Stream "b" ["A", "B", "C"] 10 0 initState
      = hopLoop T0 0 (1 / 2) c1Stream "b" ["A", "B", "C"] 9 1
          { initState with pos := initState.pos + 3, totalDelay := initState.totalDelay + 10 } :=
    c1_hop1 9 initState rfl
  have h2 := c1_hop2b 8
    { initState with pos := initState.pos + 3, totalDelay := initState.totalDelay + 10 }
    (by simp [initState]) (by simp [initState, bufGet])
  simp only [pathsLoop, c1Paths]
  rw [h1]
  rw [show (9 : ℕ) = 8 + 1 from rfl] at *
  rw [h2]
  norm_num [initState, addDisrupted, bufGet, bufSet]

/-- C2 (counterexample): on topology `T2` with both rates zero the run
traverses `[A, C]`, the lowest-delay candidate - its committed
`total_delay` is `30 = pathDelay [A, C]`, not `32 = pathDelay [A, B, C]` -
even though the candidate `[A, B, C]` has the strictly lower
reliability-weighted score: the engine ranks by cumulative delay, not by
score.  Moreover the record's `final_path` reads `[A, B, C]` with
`paths_attempted = 2`: the `for` loop rebinds its variables to the next
candidate before the delivery guard breaks, so the reported final path is
a candidate the bundle never traversed. -/
theorem C2_counterexample :
    (simulate_transmission T2 0 0 halfStream "b" "A" "C" 6).map
      (fun s => (s.final_path, s.total_delay, s.paths_attempted))
      = some (["A", "B", "C"], 30, 2)
    ∧ ["A", "B", "C"] ∈ allSimplePaths T2 "A" "C"
    ∧ pathScore T2 ["A", "B", "C"] < pathScore T2 ["A", "C"]
    ∧ pathDelay T2 ["A", "C"] = 30
    ∧ pathDelay T2 ["A", "B", "C"] = 32 := by
  refine ⟨c2_run_T2, by decide, c2_score_T2, ?_, ?_⟩
  · simp [pathDelay, linkDelay, findLink, T2, List.find?]
  · simp [pathDelay, linkDelay, findLink, T2, List.find?]
    norm_num

/-- C2 (amended): with both rates zero and a draw stream in `[0, 1)`, the
run terminates (delivery is the only exit), traverses the lowest-**delay**
candidate path `p` - committing exactly `pathDelay p` - with zero
retransmissions.  The *reported* `final_path` is `p` itself only when `p`
is the sole (last) candidate, as in the concrete scenario
(`{A-B delay 10, B-C delay 20}`: delivered via `[A, B, C]`, total delay
`30`, one path attempted); when further candidates remain, the `for`
loop's rebinding makes `final_stats` name the next candidate instead. -/
theorem C2_amended (links : Topology) (draws : ℕ → ℚ) (bid src dst : String)
    (hdraws : ∀ n, 0 ≤ draws n) (p : List String) (est : ℚ)
    (rest : List (List String × ℚ))
    (hsort : sortBy (fun x => x.2) ((allSimplePaths links src dst).map
        (fun q => (q, pathDelay links q))) = (p, est) :: rest)
    (hlen : 2 ≤ p.length) (hlink : pathLinked links p = true)
    (fuel : ℕ) (hfuel : p.length + 1 ≤ fuel) :
    ∃ stats, simulate_transmission links 0 0 draws bid src dst fuel = some stats
      ∧ stats.total_retransmissions = 0
      ∧ stats.total_delay = pathDelay links p
      ∧ stats.final_path = (match rest with | [] => p | next :: _ => next.1)
      ∧ (rest = [] → stats.paths_attempted = 1)
      ∧ ∀ q ∈ allSimplePaths links src dst, pathDelay links p ≤ pathDelay links q := by
  obtain ⟨f, rfl⟩ : ∃ f, fuel = f + 1 := ⟨fuel - 1, by omega⟩
  obtain ⟨st', heq, hdel, hretr⟩ :=
    hopLoop_clean links draws bid hdraws p hlink f 0 initState (by omega) (by omega)
  have hpmem : p ∈ allSimplePaths links src dst ∧ est = pathDelay links p := by
    have hmem : (p, est) ∈ sortBy (fun x => x.2)
        ((allSimplePaths links src dst).map (fun q => (q, pathDelay links q))) := by
      rw [hsort]
      exact List.mem_cons_self _ _
    rw [mem_sortBy] at hmem
    obtain ⟨q, hq, hqe⟩ := List.mem_map.mp hmem
    obtain ⟨h1, h2⟩ := Prod.mk.injEq .. ▸ hqe
    exact ⟨h1 ▸ hq, (h1 ▸ h2).symm⟩
  have hmin : ∀ q ∈ allSimplePaths links src dst, pathDelay links p ≤ pathDelay links q := by
    intro q hq
    have hkey := sortBy_head_min (fun x => x.2)
      ((allSimplePaths links src dst).map (fun q => (q, pathDelay links q)))
      (p, est) rest hsort (q, pathDelay links q)
      (List.mem_map.mpr ⟨q, hq, rfl⟩)
    simpa [hpmem.2] using hkey
  cases rest with
  | nil =>
    refine ⟨mkFinalStats bid st' p est [(p, est)], ?_, ?_, ?_, rfl, ?_, hmin⟩
    · simp only [simulate_transmission]
      rw [hsort, outerLoop]
      simp only [pathsLoop, heq]
    · simpa [mkFinalStats, initState] using hretr
    · rw [mkFinalStats]
      simpa [initState] using hdel
    · intro _
      simp [mkFinalStats, List.findIdx_cons]
  | cons next rest2 =>
    refine ⟨mkFinalStats bid st' next.1 next.2 ((p, est) :: next :: rest2),
      ?_, ?_, ?_, rfl, ?_, hmin⟩
    · simp only [simulate_transmission]
      rw [hsort, outerLoop]
      simp only [pathsLoop, heq]
    · simpa [mkFinalStats, initState] using hretr
    · rw [mkFinalStats]
      simpa [initState] using hdel
    · intro hcontra
      exact absurd hcontra (by simp)

/-- C2 (witness): the amended theorem instantiated at the spec's concrete
scenario: topology `T0`, rates zero, a single candidate - delivery via
`[A, B, C]` with `pathDelay T0 [A, B, C] = 30`, zero retransmissions, one
path attempted. -/
theorem C2_amended_witness :
    ∃ stats, simulate_transmission T0 0 0 halfStream "b" "A" "C" 6 = some stats
      ∧ stats.total_retransmissions = 0
      ∧ stats.total_delay = pathDelay T0 ["A", "B", "C"]
      ∧ stats.final_path = ["A", "B", "C"]
      ∧ stats.paths_attempted = 1
      ∧ ∀ q ∈ allSimplePaths T0 "A" "C", pathDelay T0 ["A", "B", "C"] ≤ pathDelay T0 q := by
  obtain ⟨stats, h1, h2, h3, h4, h5, h6⟩ := C2_amended T0 halfStream "b" "A" "C"
    (fun n => by norm_num [halfStream]) ["A", "B", "C"] 30 []
    (by rw [c1_paths_eq]; rfl) (by decide) (by decide) 6 (by decide)
  exact ⟨stats, h1, h2, h3, by simpa using h4, h5 rfl, h6⟩

/-- C3 (counterexample): with both rates zero, processing the single hop
of `[A, B]` consumes exactly three draws (`pos = 3`), not the two draws of
the claimed single `checkHop` call site: a second disruption draw happens
at the link-commit site. -/
theorem C3_counterexample :
    (hopLoop TAB 0 0 halfStream "b" ["A", "B"] 5 0 initState).map
      (fun r => (r.1.pos, r.2)) = some (3, true) ∧ (3 : ℕ) ≠ 2 := by
  constructor
  · norm_num [hopLoop, retryLoop, halfStream, TAB, findLink, hasSubstr, hasSubstrAux,
      initState, disruptAndStore, recoverySuccess, addDisrupted, bufGet, bufSet]
  · decide

/-- C3 (amended): every hop attempt performs two separate disruption
checks at two call sites - two draws at hop entry (against `error_rate`
and `disruption_rate`) and, if clean, one further draw at the link-commit
site (against `error_rate` x distance factor); a committed hop therefore
consumes exactly three draws. -/
theorem C3_amended (links : Topology) (er dr : ℚ) (draws : ℕ → ℚ) (bid : String)
    (p : List String) (i fuel : ℕ) (st : SimState) (l : Link)
    (hlen : i + 1 < p.length)
    (hlink : findLink links (p.getD i "") (p.getD (i + 1) "") = some l)
    (h1 : ¬ draws st.pos < er) (h2 : ¬ draws (st.pos + 1) < dr)
    (h3 : ¬ draws (st.pos + 2) < er * (if hasSubstr "km" l.distance then 1 else 3 / 2)) :
    hopLoop links er dr draws bid p (fuel + 1) i st
      = if i + 1 = p.length - 1
          then some ({ st with pos := st.pos + 3, totalDelay := st.totalDelay + l.delay }, true)
          else hopLoop links er dr draws bid p fuel (i + 1)
            { st with pos := st.pos + 3, totalDelay := st.totalDelay + l.delay } :=
  hop_commit_step links er dr draws bid p i fuel st l hlen hlink h1 h2 h3

/-- C3 (witness): the amended theorem at the concrete single-link topology
with rates zero: the hop commits after three draws. -/
theorem C3_amended_witness :
    hopLoop TAB 0 0 halfStream "b" ["A", "B"] 5 0 initState
      = some ({ initState with
          pos := initState.pos + 3
          totalDelay := initState.totalDelay + 10 }, true) := by
  have h := C3_amended TAB 0 0 halfStream "b" ["A", "B"] 0 4 initState
    ⟨"A", "B", 10, "1 km"⟩ (by decide) (by decide) (by norm_num [halfStream])
    (by norm_num [halfStream]) (by norm_num [halfStream])
  simpa using h

/-- C4 (counterexample): on two disjoint `A -> C` paths with the first
path's first hop disrupted, the engine does not reroute immediately: the
switch to `[A, D, C]` happens only after 3 retransmissions (the claim says
zero retries are consumed). -/
theorem C4_counterexample :
    (simulate_transmission T3 0 (1 / 2) c4Stream "b" "A" "C" 20).map
      (fun s => (s.final_path, s.total_retransmissions, s.paths_attempted))
      = some (["A", "D", "C"], 3, 2) ∧ (3 : ℕ) ≠ 0 := by
  constructor
  · simp only [simulate_transmission]
    rw [t3_paths_eq]
    have h1 : hopLoop T3 0 (1 / 2) c4Stream "b" ["A", "B", "C"] 19 0 initState
        = some (c4StA, false) := c4_hop1 18
    have h2 : hopLoop T3 0 (1 / 2) c4Stream "b" ["A", "D", "C"] 19 0 c4StA
        = hopLoop T3 0 (1 / 2) c4Stream "b" ["A", "D", "C"] 18 1 c4StB := c4_hop2 18
    have h3 : hopLoop T3 0 (1 / 2) c4Stream "b" ["A", "D", "C"] 18 1 c4StB
        = some (c4StC, true) := c4_hop3 17
    simp only [outerLoop, pathsT3, pathsLoop, h1, h2, h3]
    norm_num [mkFinalStats, c4StC, c4StA, List.findIdx, pathsT3]
    decide
  · decide

/-- C4 (amended): whenever a hop's disruption check fires and all three
recovery draws fail, the hop loop returns undelivered with exactly three
more retransmissions, no reroute attempt and no delay committed; the
switch to the next pre-computed candidate happens only afterwards, in the
path loop. -/
theorem C4_amended (links : Topology) (er dr : ℚ) (draws : ℕ → ℚ) (bid : String)
    (p : List String) (i fuel : ℕ) (st : SimState)
    (hlen : i + 1 < p.length)
    (hdis : draws st.pos < er ∨ draws (st.pos + 1) < dr)
    (hf0 : ¬ draws (st.pos + 2) > (er + dr) / 2)
    (hf1 : ¬ draws (st.pos + 3) > (er + dr) / 2)
    (hf2 : ¬ draws (st.pos + 4) > (er + dr) / 2) :
    ∃ st', hopLoop links er dr draws bid p (fuel + 1) i st = some (st', false)
      ∧ st'.retransmissions = st.retransmissions + 3
      ∧ st'.totalDelay = st.totalDelay
      ∧ st'.pos = st.pos + 5 := by
  by_cases hb : bid ∈ bufGet st.buffer (p.getD i "")
  · exact ⟨_, c4am_a links er dr draws bid p i fuel st hlen hdis hf0 hf1 hf2 hb,
      by simp, by simp, by simp⟩
  · exact ⟨_, c4am_b links er dr draws bid p i fuel st hlen hdis hf0 hf1 hf2 hb,
      by simp, by simp, by simp⟩

/-- C4 (witness): the amended theorem at the concrete `T3` scenario with
the first hop of `[A, B, C]` disrupted and all recoveries failing. -/
theorem C4_amended_witness :
    ∃ st', hopLoop T3 0 (1 / 2) c4Stream "b" ["A", "B", "C"] 19 0 initState
        = some (st', false)
      ∧ st'.retransmissions = initState.retransmissions + 3
      ∧ st'.totalDelay = initState.totalDelay
      ∧ st'.pos = initState.pos + 5 := by
  exact C4_amended T3 0 (1 / 2) c4Stream "b" ["A", "B", "C"] 0 18 initState
    (by decide) (by norm_num [c4Stream, initState]) (by norm_num [c4Stream, initState])
    (by norm_num [c4Stream, initState]) (by norm_num [c4Stream, initState])

/-- C5 (counterexample): `get_alternative_paths` returns an empty list -
not a `NoPathError` - when the graph has no route (`Tdisc`), and it takes
no disruption input at all: with `(A, B)` disrupted it still returns
`[A, B, C]`, which the spec's `selectAlternatives` would have filtered to
`[]` (and the spec's version errors on `Tdisc`). -/
theorem C5_counterexample :
    get_alternative_paths Tdisc "A" "C" 3 = []
    ∧ selectAlternativesSpec Tdisc "A" "C" [] 3 = none
    ∧ get_alternative_paths T0 "A" "C" 3 = [(["A", "B", "C"], 30)]
    ∧ selectAlternativesSpec T0 "A" "C" [("A", "B")] 3 = some [] := by
  exact ⟨by decide, by decide, c5_part3, by decide⟩

/-- C5 (amended): `get_alternative_paths` performs no disruption
filtering and raises no error: when the graph has no route it returns the
empty list, and every returned candidate is one of the enumerated simple
paths. -/
theorem C5_amended (links : Topology) (s d : String) (k : ℕ) :
    (allSimplePaths links s d = [] → get_alternative_paths links s d k = [])
    ∧ ∀ pe ∈ get_alternative_paths links s d k, pe.1 ∈ allSimplePaths links s d := by
  constructor
  · intro h
    simp [get_alternative_paths, h, sortBy]
  · intro pe hpe
    rw [get_alternative_paths] at hpe
    obtain ⟨t, ht, rfl⟩ := List.mem_map.mp hpe
    have ht2 := (mem_sortBy _ _ _).mp (List.mem_of_mem_take ht)
    obtain ⟨q, hq, rfl⟩ := List.mem_map.mp ht2
    exact hq

/-- C5 (witness): the amended theorem applied at the disconnected
topology (empty result, no error) and at `T0` (the returned candidate is
an enumerated path). -/
theorem C5_amended_witness :
    get_alternative_paths Tdisc "A" "C" 3 = []
    ∧ (["A", "B", "C"], (30 : ℚ)).1 ∈ allSimplePaths T0 "A" "C" := by
  constructor
  · exact (C5_amended Tdisc "A" "C" 3).1 (by decide)
  · exact (C5_amended T0 "A" "C" 3).2 (["A", "B", "C"], (30 : ℚ))
      (by
        have := c5_part3
        rw [this]
        exact List.mem_cons_self _ _)

/-- C6: with `source = destination` the run does not terminate at all
(the claim says immediate `Delivered` with zero delay): the delivered
check lives inside the hop loop, whose body never runs on the trivial
path, so the outer loop spins forever and `simulate_transmission` returns
`none` for every fuel. -/
theorem C6_divergence : c6Diverges := by
  intro fuel
  exact c6_outer fuel initState

/-- C7 (counterexample): `DTNNode.store_bundle` performs no
deduplication: storing the same bundle twice in a fresh node leaves two
copies in the buffer, and both stores report success (no `BufferFullError`
exists - the failure mode is a `false` return). -/
theorem C7_counterexample :
    ((store_bundle (store_bundle (mkDTNNode "n1") bX).1 bX).1).buffer = [bX, bX]
    ∧ (store_bundle (store_bundle (mkDTNNode "n1") bX).1 bX).2 = true := by
  constructor <;> rfl

/-- C7 (amended): with the default 1 MB capacity, `store_bundle` caps the
buffer at 1024 bundles: below 1024 it appends unconditionally (duplicates
included) and returns `true`; at or above 1024 it returns `false` and
leaves the buffer unchanged - no exception in either case. -/
theorem C7_amended (node : DTNNode) (b : Bundle)
    (hcap : node.max_buffer_size = 1024 * 1024) :
    ((store_bundle node b).1.buffer.length ≤ max node.buffer.length 1024)
    ∧ (node.buffer.length < 1024 →
        store_bundle node b = ({ node with buffer := node.buffer ++ [b] }, true))
    ∧ (1024 ≤ node.buffer.length → store_bundle node b = (node, false)) := by
  refine ⟨?_, ?_, ?_⟩
  · by_cases h : node.buffer.length * 1024 < node.max_buffer_size
    · rw [store_bundle, if_pos h]
      simp only [List.length_append, List.length_cons, List.length_nil]
      have hle : node.buffer.length + 1 ≤ 1024 := by omega
      calc node.buffer.length + (0 + 1) = node.buffer.length + 1 := by omega
        _ ≤ 1024 := hle
        _ ≤ max node.buffer.length 1024 := le_max_right _ _
    · rw [store_bundle, if_neg h]
      exact le_max_left _ _
  · intro hlt
    have h : node.buffer.length * 1024 < node.max_buffer_size := by
      rw [hcap]
      omega
    simp [store_bundle, h]
  · intro hge
    have h : ¬ node.buffer.length * 1024 < node.max_buffer_size := by
      rw [hcap]
      omega
    simp [store_bundle, h]

/-- C7 (witness): the amended theorem at a fresh node (append succeeds)
and at a node holding 1024 bundles (store refused, buffer unchanged). -/
theorem C7_amended_witness :
    ((store_bundle (mkDTNNode "n") bX).1.buffer.length
        ≤ max (mkDTNNode "n").buffer.length 1024)
    ∧ store_bundle (mkDTNNode "n") bX
        = ({ mkDTNNode "n" with buffer := (mkDTNNode "n").buffer ++ [bX] }, true)
    ∧ store_bundle { mkDTNNode "n" with buffer := List.replicate 1024 bX } bX
        = ({ mkDTNNode "n" with buffer := List.replicate 1024 bX }, false) := by
  obtain ⟨h1, h2, _⟩ := C7_amended (mkDTNNode "n") bX rfl
  obtain ⟨_, _, h6⟩ :=
    C7_amended { mkDTNNode "n" with buffer := List.replicate 1024 bX } bX rfl
  exact ⟨h1, h2 (by decide), h6 (by simp)⟩

/-- C8 (counterexample): after the first path exhausts its retries the
stored bundle is *not* removed, so during the same sweep the bundle ends
up buffered at `B` and at `D` simultaneously - it is in two buffers at
once, refuting the at-most-one-buffer invariant. -/
theorem C8_counterexample :
    (pathsLoop T3 0 (1 / 2) c8Stream "b" pathsT3 20 initState).map
      (fun r => (bufGet r.1.buffer "B", bufGet r.1.buffer "D", r.2.1))
      = some (["b"], ["b"], false) := by
  have h1 : hopLoop T3 0 (1 / 2) c8Stream "b" ["A", "B", "C"] 20 0 initState
      = hopLoop T3 0 (1 / 2) c8Stream "b" ["A", "B", "C"] 19 1 c8St1 := c8_hop1 19
  have h2 : hopLoop T3 0 (1 / 2) c8Stream "b" ["A", "B", "C"] 19 1 c8St1
      = some (c8StP, false) := c8_hop2 18
  have h3 : hopLoop T3 0 (1 / 2) c8Stream "b" ["A", "D", "C"] 20 0 c8StP
      = hopLoop T3 0 (1 / 2) c8Stream "b" ["A", "D", "C"] 19 1 c8St2 := c8_hop3 19
  have h4 : hopLoop T3 0 (1 / 2) c8Stream "b" ["A", "D", "C"] 19 1 c8St2
      = some (c8StQ, false) := c8_hop4 18
  simp only [pathsT3, pathsLoop, h1, h2, h3, h4]
  norm_num [bufGet, c8StQ, List.find?]
  decide

/-- C8 (amended): a successful recovery removes the stored copy exactly
once (the `c8recStream` run delivers with `B`'s buffer emptied and one
successful recovery), but after retry exhaustion the copy stays behind, so
a later disruption on another path stores a second copy: the bundle can
reside in two buffers simultaneously. -/
theorem C8_amended :
    (simulate_transmission T0 0 (1 / 2) c8recStream "b" "A" "C" 20).map
      (fun s => (s.buffer_states, s.successful_recoveries, s.total_retransmissions,
        s.final_path, s.total_delay))
      = some ([("B", 0)], 1, 1, ["A", "B", "C"], 30)
    ∧ (pathsLoop T3 0 (1 / 2) c8Stream "b" pathsT3 20 initState).map
        (fun r => r.1.buffer) = some [("B", ["b"]), ("D", ["b"])] := by
  constructor
  · simp only [simulate_transmission]
    rw [c1_paths_eq]
    have h1 : hopLoop T0 0 (1 / 2) c8recStream "b" ["A", "B", "C"] 19 0 initState
        = hopLoop T0 0 (1 / 2) c8recStream "b" ["A", "B", "C"] 18 1 c8rSt1 := c8r_hop1 18
    have h2 : hopLoop T0 0 (1 / 2) c8recStream "b" ["A", "B", "C"] 18 1 c8rSt1
        = some (c8rStR, true) := c8r_hop2 17
    simp only [outerLoop, c1Paths, pathsLoop, h1, h2]
    norm_num [mkFinalStats, c8rStR, List.findIdx]
  · have h1 : hopLoop T3 0 (1 / 2) c8Stream "b" ["A", "B", "C"] 20 0 initState
        = hopLoop T3 0 (1 / 2) c8Stream "b" ["A", "B", "C"] 19 1 c8St1 := c8_hop1 19
    have h2 : hopLoop T3 0 (1 / 2) c8Stream "b" ["A", "B", "C"] 19 1 c8St1
        = some (c8StP, false) := c8_hop2 18
    have h3 : hopLoop T3 0 (1 / 2) c8Stream "b" ["A", "D", "C"] 20 0 c8StP
        = hopLoop T3 0 (1 / 2) c8Stream "b" ["A", "D", "C"] 19 1 c8St2 := c8_hop3 19
    have h4 : hopLoop T3 0 (1 / 2) c8Stream "b" ["A", "D", "C"] 19 1 c8St2
        = some (c8StQ, false) := c8_hop4 18
    simp only [pathsT3, pathsLoop, h1, h2, h3, h4]
    norm_num [c8StQ]

/-- C9: the candidate ranking of `get_alternative_paths` agrees with the
spec's score: the sort key equals the path's cumulative delay multiplied
by the inverse of its reliability (the per-hop product of 0.9 for near
links and 0.7 for deep-space `"M km"` links), and the returned candidates
are pairwise ascending in that score. -/
theorem C9_score_ranking (links : Topology) (s d : String) (k : ℕ) :
    (∀ p, pathScore links p = scoreSpec links p)
    ∧ List.Pairwise (fun a b => scoreSpec links a.1 ≤ scoreSpec links b.1)
        (get_alternative_paths links s d k) := by
  have hscore : ∀ p, pathScore links p = scoreSpec links p := by
    intro p
    rw [pathScore, scoreSpec, reliabilitySpec_eq, one_div]
  refine ⟨hscore, ?_⟩
  rw [get_alternative_paths]
  rw [List.pairwise_map]
  have hsorted := sorted_sortBy (fun x => x.2.1 * (1 / x.2.2))
    ((allSimplePaths links s d).map (fun p => (p, pathDelay links p, pathReliability links p)))
  have htake := hsorted.sublist (List.take_sublist k _)
  apply List.Pairwise.imp_of_mem ?_ htake
  intro t u ht hu hkey
  have hval : ∀ v, v ∈ (sortBy (fun x => x.2.1 * (1 / x.2.2))
      ((allSimplePaths links s d).map (fun p => (p, pathDelay links p, pathReliability links p)))).take k →
      v.2.1 * (1 / v.2.2) = scoreSpec links v.1 := by
    intro v hv
    have hv2 := (mem_sortBy _ _ _).mp (List.mem_of_mem_take hv)
    obtain ⟨q, _, rfl⟩ := List.mem_map.mp hv2
    rw [← hscore]
    rfl
  rw [← hval t ht, ← hval u hu]
  exact hkey

/-- C10: a bundle built without an explicit id defaults to `"bundle_"`
followed by its creation time formatted `HHMMSS`; two bundles created in
the same clock second (any microsecond parts) therefore get identical
ids, so id-based identification cannot distinguish them. -/
theorem C10_default_bundle_id (s1 d1 p1 s2 d2 p2 : String) (t1 t2 : HMSTime)
    (hh : t1.hour = t2.hour) (hm : t1.minute = t2.minute) (hs : t1.second = t2.second) :
    (mkBundle s1 d1 p1 t1 none).id = "bundle_" ++ strftimeHMS t1
    ∧ (mkBundle s1 d1 p1 t1 none).id = (mkBundle s2 d2 p2 t2 none).id := by
  constructor
  · rfl
  · simp [mkBundle, strftimeHMS, hh, hm, hs]

/-- C10 (witness): two bundles created at 12:34:56 with different
microseconds share the id `"bundle_123456"`. -/
theorem C10_default_bundle_id_witness :
    (mkBundle "a" "b" "x" ⟨12, 34, 56, 0⟩ none).id = "bundle_123456"
    ∧ (mkBundle "a" "b" "x" ⟨12, 34, 56, 0⟩ none).id
        = (mkBundle "c" "d" "y" ⟨12, 34, 56, 999999⟩ none).id := by
  exact ⟨rfl, (C10_default_bundle_id "a" "b" "x" "c" "d" "y" ⟨12, 34, 56, 0⟩
    ⟨12, 34, 56, 999999⟩ rfl rfl rfl).2⟩

end DTN
